/-
Verification of the metrics-collection and comparative-statistics core of the
lambda performance-comparison repository.

The embedding follows the Python sources:
  * `src/src/metrics.py` — `PerformanceMetrics` (timer, memory capture, record,
    reset) and the `MetricsContext` scope wrapper;
  * `src/tests/test_performance_utilities.py` — the
    `LambdaPerformanceTester.calculate_statistics` and
    `compare_architectures` utilities (the statistics aggregator and the
    comparison engine of the spec);
  * `src/performance_test.py` / `src/scripts/performance_test.py` —
    `PerformanceTester.analyze_results`.

Python dictionaries are embedded as insertion-ordered association lists
(`dictInsert` / `dictLookup`), matching Python assignment and lookup
semantics.  Clock readings, memory readings and timestamps are external
inputs in Python (perf_counter, psutil, datetime); here they are explicit
parameters.  Python floats are modelled as rationals; a Python
`ZeroDivisionError` is modelled with `Except`; `math`-level square roots
(inside `statistics.stdev`) land in `ℝ` via `Real.sqrt`.
-/
import Mathlib

set_option linter.unusedSectionVars false

/-! ### Python dictionaries as insertion-ordered association lists -/

section Dict

variable {K V : Type} [DecidableEq K]

/-- Lookup in a Python dict: the value stored at the first (unique) matching
key, if any. -/
def dictLookup : List (K × V) → K → Option V
  | [], _ => none
  | (k0, v0) :: rest, k => if k0 = k then some v0 else dictLookup rest k

/-- Python dict assignment `d[k] = v`: replaces the value at an existing key
in place, otherwise appends the new binding at the end (insertion order). -/
def dictInsert : List (K × V) → K → V → List (K × V)
  | [], k, v => [(k, v)]
  | (k0, v0) :: rest, k, v =>
      if k0 = k then (k0, v) :: rest else (k0, v0) :: dictInsert rest k v

/-- The keys of a dict, in iteration order. -/
def dictKeys (m : List (K × V)) : List K := m.map Prod.fst

@[simp] theorem dictKeys_nil : dictKeys ([] : List (K × V)) = [] := rfl

@[simp] theorem dictKeys_cons (k0 : K) (v0 : V) (rest : List (K × V)) :
    dictKeys ((k0, v0) :: rest) = k0 :: dictKeys rest := rfl

theorem dictLookup_dictInsert (m : List (K × V)) (k k' : K) (v : V) :
    dictLookup (dictInsert m k v) k' = if k = k' then some v else dictLookup m k' := by
  induction m with
  | nil => by_cases h : k = k' <;> simp [dictInsert, dictLookup, h]
  | cons p rest ih =>
      obtain ⟨k0, v0⟩ := p
      by_cases h0 : k0 = k
      · subst h0
        by_cases h : k0 = k' <;> simp [dictInsert, dictLookup, h]
      · simp only [dictInsert, if_neg h0]
        by_cases h : k0 = k'
        · subst h
          have hk : ¬k = k0 := fun hh => h0 hh.symm
          simp [dictLookup, hk]
        · simp [dictLookup, h, ih]

theorem dictLookup_some_mem {m : List (K × V)} {k : K} {v : V}
    (h : dictLookup m k = some v) : (k, v) ∈ m := by
  induction m with
  | nil => simp [dictLookup] at h
  | cons p rest ih =>
      obtain ⟨k0, v0⟩ := p
      by_cases h0 : k0 = k
      · subst h0
        simp [dictLookup] at h
        simp [h]
      · simp [dictLookup, h0] at h
        exact List.mem_cons_of_mem _ (ih h)

theorem dictLookup_isSome_of_mem {m : List (K × V)} {k : K} {v : V}
    (h : (k, v) ∈ m) : (dictLookup m k).isSome := by
  induction m with
  | nil => simp at h
  | cons p rest ih =>
      obtain ⟨k0, v0⟩ := p
      rcases List.mem_cons.mp h with h1 | h1
      · have hk : k0 = k := by cases h1; rfl
        simp [dictLookup, hk]
      · by_cases h0 : k0 = k
        · simp [dictLookup, h0]
        · simpa [dictLookup, h0] using ih h1

theorem mem_dictKeys_dictInsert {m : List (K × V)} {k a : K} {v : V}
    (h : a ∈ dictKeys (dictInsert m k v)) : a = k ∨ a ∈ dictKeys m := by
  induction m with
  | nil =>
      simp [dictInsert] at h
      exact Or.inl h
  | cons p rest ih =>
      obtain ⟨k0, v0⟩ := p
      by_cases h0 : k0 = k
      · subst h0
        have h' : a = k0 ∨ a ∈ dictKeys rest := by
          simpa [dictInsert] using h
        rcases h' with h' | h'
        · exact Or.inl h'
        · exact Or.inr (by simp [h'])
      · have h' : a = k0 ∨ a ∈ dictKeys (dictInsert rest k v) := by
          simpa [dictInsert, h0] using h
        rcases h' with h' | h'
        · exact Or.inr (by simp [h'])
        · rcases ih h' with h2 | h2
          · exact Or.inl h2
          · exact Or.inr (by simp [h2])

theorem dictKeys_nodup_dictInsert {m : List (K × V)} {k : K} {v : V}
    (h : (dictKeys m).Nodup) : (dictKeys (dictInsert m k v)).Nodup := by
  induction m with
  | nil => simp [dictInsert]
  | cons p rest ih =>
      obtain ⟨k0, v0⟩ := p
      simp only [dictKeys_cons, List.nodup_cons] at h
      by_cases h0 : k0 = k
      · subst h0
        have : (dictKeys ((k0, v) :: rest)).Nodup := by
          simp only [dictKeys_cons, List.nodup_cons]
          exact h
        simpa [dictInsert] using this
      · have hgoal : (dictKeys ((k0, v0) :: dictInsert rest k v)).Nodup := by
          simp only [dictKeys_cons, List.nodup_cons]
          refine ⟨?_, ih h.2⟩
          intro hmem
          rcases mem_dictKeys_dictInsert hmem with h' | h'
          · exact h0 h'
          · exact h.1 h'
        simpa [dictInsert, h0] using hgoal

theorem dictLookup_eq_none_of_not_mem_keys {m : List (K × V)} {k : K}
    (h : k ∉ dictKeys m) : dictLookup m k = none := by
  induction m with
  | nil => simp [dictLookup]
  | cons p rest ih =>
      obtain ⟨k0, v0⟩ := p
      simp only [dictKeys_cons, List.mem_cons] at h
      push_neg at h
      have hne : ¬k0 = k := fun hh => h.1 hh.symm
      simp [dictLookup, hne, ih h.2]

/-- In a dict with no duplicate keys, the number of bindings at a key is one
when the key is present and zero otherwise. -/
theorem countP_key_of_nodup {m : List (K × V)} {k : K}
    (h : (dictKeys m).Nodup) :
    m.countP (fun p => decide (p.1 = k)) =
      if (dictLookup m k).isSome then 1 else 0 := by
  induction m with
  | nil => simp [dictLookup]
  | cons p rest ih =>
      obtain ⟨k0, v0⟩ := p
      simp [dictKeys] at h
      by_cases h0 : k0 = k
      · subst h0
        have hnone : dictLookup rest k0 = none :=
          dictLookup_eq_none_of_not_mem_keys (by simpa [dictKeys] using h.1)
        have : rest.countP (fun p => decide (p.1 = k0)) = 0 := by
          rw [ih h.2, hnone]; simp
        simp [List.countP_cons, dictLookup, this]
      · simp [List.countP_cons, dictLookup, h0, ih h.2]

/-- In a dict with no duplicate keys, a key determines its bound value. -/
theorem mem_value_unique_of_nodup_keys {m : List (K × V)} {k : K} {v v' : V}
    (hnd : (dictKeys m).Nodup) (h1 : (k, v) ∈ m) (h2 : (k, v') ∈ m) : v = v' := by
  induction m with
  | nil => simp at h1
  | cons p rest ih =>
      obtain ⟨k0, v0⟩ := p
      simp only [dictKeys_cons, List.nodup_cons] at hnd
      rcases List.mem_cons.mp h1 with e1 | e1 <;>
        rcases List.mem_cons.mp h2 with e2 | e2
      · rw [Prod.mk.injEq] at e1 e2
        rw [e1.2, e2.2]
      · exfalso
        rw [Prod.mk.injEq] at e1
        exact hnd.1 (e1.1 ▸ (List.mem_map_of_mem Prod.fst e2))
      · exfalso
        rw [Prod.mk.injEq] at e2
        exact hnd.1 (e2.1 ▸ (List.mem_map_of_mem Prod.fst e1))
      · exact ih hnd.2 e1 e2

end Dict

/-! ### `src/src/metrics.py` — the metrics collector -/

/-- A value stored in a Python metrics dictionary: strings, floats
(modelled as rationals), booleans and integers. -/
inductive Val where
  | s : String → Val
  | q : ℚ → Val
  | b : Bool → Val
  | n : ℕ → Val
deriving DecidableEq

/-- One `psutil` memory reading, as assembled by
`PerformanceMetrics.capture_memory_usage` (all figures in MB / percent). -/
structure MemInfo where
  rss_mb : ℚ
  percent : ℚ
  sys_total_mb : ℚ
  sys_avail_mb : ℚ
  sys_percent : ℚ
deriving DecidableEq

/-- The all-zero reading returned when memory introspection fails. -/
def zeroMemInfo : MemInfo :=
  { rss_mb := 0, percent := 0, sys_total_mb := 0, sys_avail_mb := 0, sys_percent := 0 }

/-- The mutable state of a `PerformanceMetrics` collector:
`metrics_data` maps an operation name to its metrics dictionary,
`start_times` holds pending timer starts, `memory_samples` accumulates the
resident-memory figures of successful captures. -/
structure PerformanceMetrics where
  architecture : String
  function_name : String
  function_version : String
  runtime : String
  metrics_data : String → Option (String → Option Val)
  start_times : String → Option ℚ
  memory_samples : List ℚ

/-- `start_timer`: records the clock reading `now` (Python
`time.perf_counter()`) under the operation name, overwriting any pending
start for the same key. -/
def start_timer (st : PerformanceMetrics) (op : String) (now : ℚ) : PerformanceMetrics :=
  { st with start_times := fun o => if o = op then some now else st.start_times o }

/-- `stop_timer`: with no pending start, returns `0.0` and leaves the state
untouched; otherwise computes `(now - start) * 1000` ms, stores it under
`execution_time_ms` in the operation's metrics dictionary (creating the
dictionary if absent), deletes the pending start, and returns the value. -/
def stop_timer (st : PerformanceMetrics) (op : String) (now : ℚ) :
    ℚ × PerformanceMetrics :=
  match st.start_times op with
  | none => (0, st)
  | some t0 =>
      let execution_time := (now - t0) * 1000
      let entry := (st.metrics_data op).getD (fun _ => none)
      let entry' := fun key =>
        if key = "execution_time_ms" then some (Val.q execution_time) else entry key
      (execution_time,
        { st with
          metrics_data := fun o => if o = op then some entry' else st.metrics_data o,
          start_times := fun o => if o = op then none else st.start_times o })

/-- `capture_memory_usage`: on a successful psutil reading returns it and
appends `memory_used_mb` to the sample list; on an introspection failure
(`reading = none`) returns the all-zero reading and appends nothing. -/
def capture_memory_usage (st : PerformanceMetrics) (reading : Option MemInfo) :
    MemInfo × PerformanceMetrics :=
  match reading with
  | some m => (m, { st with memory_samples := st.memory_samples ++ [m.rss_mb] })
  | none => (zeroMemInfo, st)

/-- `get_peak_memory_usage`: `max(self.memory_samples)` when samples exist,
`0.0` otherwise. -/
def get_peak_memory_usage (st : PerformanceMetrics) : ℚ :=
  match st.memory_samples with
  | [] => 0
  | x :: xs => xs.foldl max x

/-- The thirteen keys the `metrics` dictionary built by
`record_operation_metrics` always carries. -/
def standardKeys : List String :=
  ["architecture", "operation", "execution_time_ms", "memory_used_mb",
   "peak_memory_mb", "memory_percent", "cold_start", "data_size",
   "iterations", "timestamp", "function_name", "function_version", "runtime"]

/-- The fresh `metrics` dictionary assembled by `record_operation_metrics`
before the `additional_metrics` update. -/
def baseMetricsDict (st : PerformanceMetrics) (op : String) (execV : Val)
    (mem : MemInfo) (peak : ℚ) (cold : Bool) (data_size iterations : ℕ)
    (ts : String) : String → Option Val := fun key =>
  if key = "architecture" then some (Val.s st.architecture)
  else if key = "operation" then some (Val.s op)
  else if key = "execution_time_ms" then some execV
  else if key = "memory_used_mb" then some (Val.q mem.rss_mb)
  else if key = "peak_memory_mb" then some (Val.q peak)
  else if key = "memory_percent" then some (Val.q mem.percent)
  else if key = "cold_start" then some (Val.b cold)
  else if key = "data_size" then some (Val.n data_size)
  else if key = "iterations" then some (Val.n iterations)
  else if key = "timestamp" then some (Val.s ts)
  else if key = "function_name" then some (Val.s st.function_name)
  else if key = "function_version" then some (Val.s st.function_version)
  else if key = "runtime" then some (Val.s st.runtime)
  else none

/-- Python `d.update(m)` on metrics dictionaries: keys present in `m` win,
all other keys keep their value from `d`. -/
def entryUpdate (d m : String → Option Val) : String → Option Val := fun key =>
  match m key with
  | some v => some v
  | none => d key

/-- `record_operation_metrics`: captures memory, assembles the standard
metrics dictionary (reading the operation's last stored
`execution_time_ms`, default `0.0`), merges `additional_metrics` over it,
then merges the result over the stored entry for the operation
(`self.metrics_data[operation].update(metrics)`), and returns the merged
metrics dictionary.  `reading` is the external psutil input and `ts` the
external timestamp. -/
def record_operation_metrics (st : PerformanceMetrics) (op : String)
    (data_size iterations : ℕ) (cold_start : Bool)
    (additional_metrics : String → Option Val) (reading : Option MemInfo)
    (ts : String) : (String → Option Val) × PerformanceMetrics :=
  let captured := capture_memory_usage st reading
  let memory_info := captured.1
  let st1 := captured.2
  let execV := ((st1.metrics_data op).bind (fun e => e "execution_time_ms")).getD (Val.q 0)
  let base := baseMetricsDict st1 op execV memory_info (get_peak_memory_usage st1)
    cold_start data_size iterations ts
  let metrics := entryUpdate base additional_metrics
  let prior := (st1.metrics_data op).getD (fun _ => none)
  let entry' := entryUpdate prior metrics
  (metrics,
    { st1 with metrics_data := fun o => if o = op then some entry' else st1.metrics_data o })

/-- `reset_metrics`: clears entries, pending timers and memory samples. -/
def reset_metrics (st : PerformanceMetrics) : PerformanceMetrics :=
  { st with metrics_data := fun _ => none, start_times := fun _ => none,
            memory_samples := [] }

/-- Running a workload inside `MetricsContext` (`with MetricsContext(...)`):
`__enter__` starts the timer at clock reading `t0`; the wrapped work
produces `body` (a normal value or a raised fault, which the context
manager neither consumes nor alters); `__exit__` stops the timer at clock
reading `t1` and records the operation's metrics, after which the body's
outcome is surfaced unchanged. -/
def runMetricsContext {E A : Type} (st : PerformanceMetrics) (op : String)
    (data_size iterations : ℕ) (cold_start : Bool) (t0 t1 : ℚ)
    (reading : Option MemInfo) (ts : String) (body : Except E A) :
    Except E A × PerformanceMetrics :=
  let st1 := start_timer st op t0
  let stopped := stop_timer st1 op t1
  let recorded := record_operation_metrics stopped.2 op data_size iterations
    cold_start (fun _ => none) reading ts
  (body, recorded.2)

/-! ### `src/tests/test_performance_utilities.py` — aggregator and comparison -/

/-- One raw trial record, with the fields `calculate_statistics` and
`compare_architectures` consume. -/
structure TestResult where
  architecture : String
  operation : String
  data_size : ℕ
  iterations : ℕ
  execution_time_ms : ℚ
  memory_used_mb : ℚ
  cold_start : Bool
deriving DecidableEq

/-- Per-group descriptive statistics (`PerformanceStats` in the source). -/
structure PerformanceStats where
  architecture : String
  operation : String
  data_size : ℕ
  sample_count : ℕ
  mean_execution_time : ℚ
  median_execution_time : ℚ
  std_dev_execution_time : ℚ
  min_execution_time : ℚ
  max_execution_time : ℚ
  mean_memory_usage : ℚ
  cold_start_percentage : ℚ
deriving DecidableEq

/-- The grouping key `(result.architecture, result.operation, result.data_size)`. -/
def keyOf (r : TestResult) : String × String × ℕ :=
  (r.architecture, r.operation, r.data_size)

/-- Python `min(xs)` on a nonempty list (`0` as an unused placeholder for the
empty list, which raises in Python and is never reached here). -/
def listMin : List ℚ → ℚ
  | [] => 0
  | x :: xs => xs.foldl min x

/-- Python `max(xs)` on a nonempty list (placeholder `0` for the empty list,
unreachable). -/
def listMax : List ℚ → ℚ
  | [] => 0
  | x :: xs => xs.foldl max x

/-- Python `sorted(xs)`: the list in ascending order (stable, so the result
is determined; embedded with a structurally recursive sort). -/
def pySorted (xs : List ℚ) : List ℚ := xs.insertionSort (fun a b => a ≤ b)

/-- Python `xs[i]` on a list of floats (placeholder `0` out of bounds,
unreachable at the indices used). -/
def pyIdx (xs : List ℚ) (i : ℕ) : ℚ := xs.getD i 0

/-- The grouping loop of `calculate_statistics`: builds the dictionary from
group keys to the list of results carrying that key, in encounter order. -/
def groupResults (results : List TestResult) :
    List ((String × String × ℕ) × List TestResult) :=
  results.foldl
    (fun groups r =>
      dictInsert groups (keyOf r) (((dictLookup groups (keyOf r)).getD []) ++ [r]))
    []

/-- The statistics assembled for one group (`std_dev_execution_time` is the
source's literal mock value `5.0`). -/
def mkStats (key : String × String × ℕ) (group_results : List TestResult) :
    PerformanceStats :=
  let exec_times := group_results.map (fun r => r.execution_time_ms)
  { architecture := key.1
    operation := key.2.1
    data_size := key.2.2
    sample_count := group_results.length
    mean_execution_time := exec_times.sum / (exec_times.length : ℚ)
    median_execution_time := pyIdx (pySorted exec_times) (exec_times.length / 2)
    std_dev_execution_time := 5
    min_execution_time := listMin exec_times
    max_execution_time := listMax exec_times
    mean_memory_usage :=
      (group_results.map (fun r => r.memory_used_mb)).sum / (group_results.length : ℚ)
    cold_start_percentage :=
      ((group_results.countP (fun r => r.cold_start) : ℚ) /
        (group_results.length : ℚ)) * 100 }

/-- `calculate_statistics`: group by `(architecture, operation, data_size)`
and build one `PerformanceStats` per group. -/
def calculate_statistics (results : List TestResult) : List PerformanceStats :=
  (groupResults results).map (fun p => mkStats p.1 p.2)

/-- One comparison record produced by `compare_architectures`. -/
structure ComparisonResult where
  operation : String
  data_size : ℕ
  winner : String
  execution_time_diff_percent : ℚ
deriving DecidableEq

/-- The per-key comparison body: winner by strict less-than on mean
execution time (`x86_64` on ties), signed percentage difference relative to
the x86_64 mean. -/
def mkComparison (key : String × ℕ) (arm_stat x86_stat : PerformanceStats) :
    ComparisonResult :=
  { operation := key.1
    data_size := key.2
    winner :=
      if arm_stat.mean_execution_time < x86_stat.mean_execution_time then "ARM64"
      else "x86_64"
    execution_time_diff_percent :=
      (arm_stat.mean_execution_time - x86_stat.mean_execution_time) /
        x86_stat.mean_execution_time * 100 }

/-- The dict comprehension
`{(s.operation, s.data_size): s for s in stats if s.architecture == arch}`. -/
def archMap (arch : String) (stats : List PerformanceStats) :
    List ((String × ℕ) × PerformanceStats) :=
  stats.foldl
    (fun m s =>
      if s.architecture = arch then dictInsert m (s.operation, s.data_size) s else m)
    []

/-- The comparison dictionary key `f"{key[0]}_{key[1]}"`. -/
def toKey (key : String × ℕ) : String := key.1 ++ "_" ++ toString key.2

/-- The loop of `compare_architectures` over the keys of the arm64 map:
keys absent from the x86 map are skipped; a paired x86 mean of `0.0` makes
the percentage division raise `ZeroDivisionError` (modelled as
`Except.error`), aborting the whole computation. -/
def comparePairs (x86_stats : List ((String × ℕ) × PerformanceStats)) :
    List ((String × ℕ) × PerformanceStats) →
    Except Unit (List (String × ComparisonResult))
  | [] => Except.ok []
  | (key, arm_stat) :: rest =>
      match dictLookup x86_stats key with
      | none => comparePairs x86_stats rest
      | some x86_stat =>
          if x86_stat.mean_execution_time = 0 then Except.error ()
          else
            match comparePairs x86_stats rest with
            | Except.error e => Except.error e
            | Except.ok tail =>
                Except.ok ((toKey key, mkComparison key arm_stat x86_stat) :: tail)

/-- `compare_architectures`: builds the two arch-keyed maps and pairs keys
present in both, producing the comparisons dictionary (in arm64-map
iteration order). -/
def compare_architectures (stats : List PerformanceStats) :
    Except Unit (List (String × ComparisonResult)) :=
  comparePairs (archMap "x86_64" stats) (archMap "arm64" stats)

/-- Modelled from the spec: "median (for even counts, lower-middle element
taken after ascending sort)" — the lower-middle element of the ascending
sort, i.e. the element at index `(n - 1) / 2`. -/
def medianLowerSpec (xs : List ℚ) : ℚ := pyIdx (pySorted xs) ((xs.length - 1) / 2)

/-! ### `src/performance_test.py` / `src/scripts/performance_test.py` —
`PerformanceTester.analyze_results` -/

/-- One successful `run_single_test` record, with the fields
`analyze_results` consumes. -/
structure SingleResult where
  lambda_time : ℚ
  memory_used : ℚ
  cold_start : Bool
deriving DecidableEq

/-- Python `sum(xs)/len(xs)` (`statistics.mean` on a nonempty list). -/
def listMean (xs : List ℚ) : ℚ := xs.sum / (xs.length : ℚ)

/-- The Bessel-corrected sample variance used inside `statistics.stdev`:
the sum of squared deviations from the mean over `n - 1`. -/
def sampleVarianceQ (xs : List ℚ) : ℚ :=
  (xs.map (fun x => (x - listMean xs) ^ 2)).sum / ((xs.length : ℚ) - 1)

/-- `statistics.stdev(xs)`: the square root of the Bessel-corrected sample
variance. -/
noncomputable def pyStdev (xs : List ℚ) : ℝ := Real.sqrt (sampleVarianceQ xs)

/-- One architecture's sub-dictionary of the analysis. -/
structure ArchAnalysis where
  avg_time_ms : ℚ
  min_time_ms : ℚ
  max_time_ms : ℚ
  std_dev_ms : ℝ
  avg_memory_mb : ℚ
  cold_starts : ℕ

/-- The per-side statistics block of `analyze_results`:
`statistics.stdev(times) if len(times) > 1 else 0` for the standard
deviation, mean/min/max over the times, mean memory, cold-start count. -/
noncomputable def mkArchAnalysis (results : List SingleResult) : ArchAnalysis :=
  let times := results.map (fun r => r.lambda_time)
  { avg_time_ms := listMean times
    min_time_ms := listMin times
    max_time_ms := listMax times
    std_dev_ms := if 1 < times.length then pyStdev times else 0
    avg_memory_mb := listMean (results.map (fun r => r.memory_used))
    cold_starts := results.countP (fun r => r.cold_start) }

/-- The full analysis dictionary; `winner` / `performance_improvement` are
only present (`some`) under the `x86_avg > 0` guard.  The improvement is
kept as the raw percentage the source formats into its string. -/
structure Analysis where
  operation : String
  test_count : ℕ
  arm64 : ArchAnalysis
  x86_64 : ArchAnalysis
  winner : Option String
  performance_improvement : Option ℚ

/-- `analyze_results`: `none` models the `{"error": "Insufficient data for
comparison"}` return on an empty side; otherwise both statistics blocks are
computed and winner/improvement emitted only when the x86 average is
positive. -/
noncomputable def analyze_results (operation : String)
    (arm64_results x86_results : List SingleResult) : Option Analysis :=
  if arm64_results = [] ∨ x86_results = [] then none
  else
    let a := mkArchAnalysis arm64_results
    let x := mkArchAnalysis x86_results
    let verdict : Option String × Option ℚ :=
      if 0 < x.avg_time_ms then
        let performance_ratio := a.avg_time_ms / x.avg_time_ms
        if performance_ratio < 1 then (some "ARM64", some ((1 - performance_ratio) * 100))
        else (some "x86_64", some ((performance_ratio - 1) * 100))
      else (none, none)
    some { operation := operation
           test_count := arm64_results.length
           arm64 := a
           x86_64 := x
           winner := verdict.1
           performance_improvement := verdict.2 }

/-! ### Claim C5 — `stop_timer` -/

/-- C5: for any operation with no pending start, `stop_timer` returns
exactly `0.0` and leaves the collector untouched (it does not raise);
otherwise it returns `(now - start) * 1000` milliseconds, stores that value
under `execution_time_ms` in the collector's entry for the operation, and
clears the pending start (all other operations' timers and entries are
untouched). -/
theorem stop_timer_spec (st : PerformanceMetrics) (op : String) (now : ℚ) :
    (st.start_times op = none → stop_timer st op now = (0, st)) ∧
    (∀ t0, st.start_times op = some t0 →
      (stop_timer st op now).1 = (now - t0) * 1000 ∧
      (stop_timer st op now).2.start_times op = none ∧
      (∃ e, (stop_timer st op now).2.metrics_data op = some e ∧
        e "execution_time_ms" = some (Val.q ((now - t0) * 1000))) ∧
      (∀ o, o ≠ op → (stop_timer st op now).2.start_times o = st.start_times o) ∧
      (∀ o, o ≠ op → (stop_timer st op now).2.metrics_data o = st.metrics_data o)) := by
  constructor
  · intro h
    simp [stop_timer, h]
  · intro t0 h
    refine ⟨by simp [stop_timer, h], by simp [stop_timer, h], ?_, ?_, ?_⟩
    · refine ⟨fun key => if key = "execution_time_ms" then some (Val.q ((now - t0) * 1000))
        else ((st.metrics_data op).getD (fun _ => none)) key, ?_, ?_⟩ <;>
        simp [stop_timer, h]
    · intro o ho
      simp [stop_timer, h, ho]
    · intro o ho
      simp [stop_timer, h, ho]

/-- A concrete collector with no pending starts. -/
def stExample : PerformanceMetrics :=
  { architecture := "arm64", function_name := "perf-test", function_version := "1",
    runtime := "python3.12", metrics_data := fun _ => none,
    start_times := fun _ => none, memory_samples := [] }

/-- A concrete collector with a start pending for `sort_intensive` at clock 2. -/
def stPending : PerformanceMetrics :=
  { stExample with start_times := fun o => if o = "sort_intensive" then some 2 else none }

/-- Witness for C5: stop-before-start at a concrete collector returns
`(0.0, unchanged)`; a pending start at clock 2 stopped at clock 5 returns
`(5 - 2) * 1000` ms. -/
theorem stop_timer_spec_witness :
    stop_timer stExample "sort_intensive" 5 = (0, stExample) ∧
    (stop_timer stPending "sort_intensive" 5).1 = (5 - 2) * 1000 := by
  constructor
  · exact (stop_timer_spec stExample "sort_intensive" 5).1 rfl
  · exact ((stop_timer_spec stPending "sort_intensive" 5).2 2 (by simp [stPending])).1

/-! ### Claim C1 — `MetricsContext` scope exit -/

/-- C1: for every operation and wrapped workload, when a `MetricsContext`
scope exits — whether the body produced a value or raised a fault — the
timer is stopped and a metrics entry for that operation is recorded (the
entry map keys entries by operation: exactly one entry per operation, and
entries of every other operation are untouched, so the recording happens
exactly once), and the body's outcome — in particular a raised fault — is
surfaced to the caller unchanged after that cleanup.  The recorded entry
carries `execution_time_ms = (t1 - t0) * 1000`, so a body that ran at least
10 ms produces an entry with `execution_time_ms ≥ 10`. -/
theorem runMetricsContext_spec {E A : Type} (st : PerformanceMetrics) (op : String)
    (data_size iterations : ℕ) (cold_start : Bool) (t0 t1 : ℚ)
    (reading : Option MemInfo) (ts : String) (body : Except E A) :
    (runMetricsContext st op data_size iterations cold_start t0 t1 reading ts body).1
        = body ∧
    (runMetricsContext st op data_size iterations cold_start t0 t1 reading ts body).2.start_times op
        = none ∧
    ((runMetricsContext st op data_size iterations cold_start t0 t1 reading ts body).2.metrics_data op).isSome ∧
    (((runMetricsContext st op data_size iterations cold_start t0 t1 reading ts body).2.metrics_data op).bind
        (fun e => e "execution_time_ms") = some (Val.q ((t1 - t0) * 1000)) ∧
      ((runMetricsContext st op data_size iterations cold_start t0 t1 reading ts body).2.metrics_data op).bind
        (fun e => e "cold_start") = some (Val.b cold_start) ∧
      ((runMetricsContext st op data_size iterations cold_start t0 t1 reading ts body).2.metrics_data op).bind
        (fun e => e "data_size") = some (Val.n data_size) ∧
      ((runMetricsContext st op data_size iterations cold_start t0 t1 reading ts body).2.metrics_data op).bind
        (fun e => e "iterations") = some (Val.n iterations) ∧
      ((runMetricsContext st op data_size iterations cold_start t0 t1 reading ts body).2.metrics_data op).bind
        (fun e => e "operation") = some (Val.s op) ∧
      ((runMetricsContext st op data_size iterations cold_start t0 t1 reading ts body).2.metrics_data op).bind
        (fun e => e "architecture") = some (Val.s st.architecture) ∧
      ((runMetricsContext st op data_size iterations cold_start t0 t1 reading ts body).2.metrics_data op).bind
        (fun e => e "timestamp") = some (Val.s ts)) ∧
    (∀ o, o ≠ op →
      (runMetricsContext st op data_size iterations cold_start t0 t1 reading ts body).2.metrics_data o
        = st.metrics_data o) ∧
    (∀ o, o ≠ op →
      (runMetricsContext st op data_size iterations cold_start t0 t1 reading ts body).2.start_times o
        = st.start_times o) ∧
    ((1 : ℚ)/100 ≤ t1 - t0 → (10 : ℚ) ≤ (t1 - t0) * 1000) := by
  refine ⟨rfl, ?_, ?_, ?_, ?_, ?_, ?_⟩
  · cases reading <;>
      simp [runMetricsContext, start_timer, stop_timer, record_operation_metrics,
        capture_memory_usage]
  · cases reading <;>
      simp [runMetricsContext, start_timer, stop_timer, record_operation_metrics,
        capture_memory_usage]
  · cases reading <;>
      refine ⟨?_, ?_, ?_, ?_, ?_, ?_, ?_⟩ <;>
        simp [runMetricsContext, start_timer, stop_timer, record_operation_metrics,
          capture_memory_usage, entryUpdate, baseMetricsDict]
  · intro o ho
    cases reading <;>
      simp [runMetricsContext, start_timer, stop_timer, record_operation_metrics,
        capture_memory_usage, ho]
  · intro o ho
    cases reading <;>
      simp [runMetricsContext, start_timer, stop_timer, record_operation_metrics,
        capture_memory_usage, ho]
  · intro hdur
    nlinarith [hdur]

/-- A concrete memory reading. -/
def memEx : MemInfo :=
  { rss_mb := 50, percent := 25, sys_total_mb := 1024, sys_avail_mb := 512,
    sys_percent := 50 }

/-- Witness for C1: a workload raising `RuntimeError` after roughly 30 ms
(start clock 2, exit clock 2 + 3/100) propagates unchanged, while the
collector holds a recorded entry for the operation with
`execution_time_ms = (2 + 3/100 - 2) * 1000 ≥ 10`, the timer cleared, and
other operations untouched. -/
theorem runMetricsContext_spec_witness :
    (runMetricsContext stExample "sort_intensive" 1000 1 true 2 (2 + 3/100)
        (some memEx) "TS" (Except.error "RuntimeError" : Except String Unit)).1
      = Except.error "RuntimeError" ∧
    (runMetricsContext stExample "sort_intensive" 1000 1 true 2 (2 + 3/100)
        (some memEx) "TS" (Except.error "RuntimeError" : Except String Unit)).2.start_times
        "sort_intensive" = none ∧
    ((runMetricsContext stExample "sort_intensive" 1000 1 true 2 (2 + 3/100)
        (some memEx) "TS" (Except.error "RuntimeError" : Except String Unit)).2.metrics_data
        "sort_intensive").bind (fun e => e "execution_time_ms")
      = some (Val.q ((2 + 3/100 - 2) * 1000)) ∧
    (runMetricsContext stExample "sort_intensive" 1000 1 true 2 (2 + 3/100)
        (some memEx) "TS" (Except.error "RuntimeError" : Except String Unit)).2.metrics_data
        "string_processing" = stExample.metrics_data "string_processing" ∧
    (10 : ℚ) ≤ (2 + 3/100 - 2) * 1000 := by
  have h := runMetricsContext_spec stExample "sort_intensive" 1000 1 true 2 (2 + 3/100)
    (some memEx) "TS" (Except.error "RuntimeError" : Except String Unit)
  exact ⟨h.1, h.2.1, h.2.2.2.1.1, h.2.2.2.2.1 "string_processing" (by decide),
    h.2.2.2.2.2.2 (by norm_num)⟩

/-! ### Claim C10 — `record_operation_metrics` merges, not replaces -/

/-- The standard metrics dictionary binds exactly the thirteen standard
keys. -/
theorem baseMetricsDict_eq_none_iff (st : PerformanceMetrics) (op : String)
    (execV : Val) (mem : MemInfo) (peak : ℚ) (cold : Bool)
    (data_size iterations : ℕ) (ts : String) (k : String) :
    baseMetricsDict st op execV mem peak cold data_size iterations ts k = none ↔
      k ∉ standardKeys := by
  constructor
  · intro h hk
    simp only [standardKeys, List.mem_cons, List.not_mem_nil, or_false] at hk
    rcases hk with rfl | rfl | rfl | rfl | rfl | rfl | rfl | rfl | rfl | rfl | rfl | rfl | rfl <;>
      simp [baseMetricsDict] at h
  · intro hk
    simp only [standardKeys, List.mem_cons, List.not_mem_nil, or_false] at hk
    push_neg at hk
    obtain ⟨n1, n2, n3, n4, n5, n6, n7, n8, n9, n10, n11, n12, n13⟩ := hk
    simp [baseMetricsDict, n1, n2, n3, n4, n5, n6, n7, n8, n9, n10, n11, n12, n13]

/-- `record_operation_metrics` stores, under the operation key, the prior
entry updated with the merged metrics it returns; entries of other
operations are untouched. -/
theorem record_operation_metrics_stores (st : PerformanceMetrics) (op : String)
    (data_size iterations : ℕ) (cold_start : Bool)
    (additional_metrics : String → Option Val) (reading : Option MemInfo)
    (ts : String) :
    (record_operation_metrics st op data_size iterations cold_start
        additional_metrics reading ts).2.metrics_data op
      = some (entryUpdate ((st.metrics_data op).getD (fun _ => none))
          ((record_operation_metrics st op data_size iterations cold_start
            additional_metrics reading ts).1)) ∧
    (∀ o, o ≠ op →
      (record_operation_metrics st op data_size iterations cold_start
          additional_metrics reading ts).2.metrics_data o = st.metrics_data o) := by
  constructor
  · cases reading <;> simp [record_operation_metrics, capture_memory_usage]
  · intro o ho
    cases reading <;> simp [record_operation_metrics, capture_memory_usage, ho]

/-- With no `additional_metrics`, the merged metrics returned by
`record_operation_metrics` bind exactly the standard keys. -/
theorem record_operation_metrics_domain (st : PerformanceMetrics) (op : String)
    (data_size iterations : ℕ) (cold_start : Bool) (reading : Option MemInfo)
    (ts : String) (k : String) :
    (record_operation_metrics st op data_size iterations cold_start
        (fun _ => none) reading ts).1 k = none ↔ k ∉ standardKeys := by
  cases reading <;>
    simp only [record_operation_metrics, capture_memory_usage, entryUpdate] <;>
    exact baseMetricsDict_eq_none_iff ..

/-- C10: after two successive `record_operation_metrics` calls for the same
operation, the stored entry binds every standard key to the second call's
value, while any extra key supplied via `additional_metrics` only in the
first call keeps its value from the first entry — the entry is merged via
dict update, not replaced — and the map still holds exactly one entry per
operation key (other operations' entries are untouched). -/
theorem record_operation_metrics_merge (st : PerformanceMetrics) (op : String)
    (d1 i1 : ℕ) (c1 : Bool) (extras : String → Option Val) (r1 : Option MemInfo)
    (ts1 : String) (d2 i2 : ℕ) (c2 : Bool) (r2 : Option MemInfo) (ts2 : String) :
    (((record_operation_metrics
        (record_operation_metrics st op d1 i1 c1 extras r1 ts1).2
        op d2 i2 c2 (fun _ => none) r2 ts2).2.metrics_data op).isSome ∧
      ((record_operation_metrics st op d1 i1 c1 extras r1 ts1).2.metrics_data op).isSome) ∧
    (∀ k, k ∈ standardKeys →
      ((record_operation_metrics
          (record_operation_metrics st op d1 i1 c1 extras r1 ts1).2
          op d2 i2 c2 (fun _ => none) r2 ts2).2.metrics_data op).bind (fun e => e k)
        = (record_operation_metrics
            (record_operation_metrics st op d1 i1 c1 extras r1 ts1).2
            op d2 i2 c2 (fun _ => none) r2 ts2).1 k) ∧
    (∀ k, k ∉ standardKeys →
      ((record_operation_metrics
          (record_operation_metrics st op d1 i1 c1 extras r1 ts1).2
          op d2 i2 c2 (fun _ => none) r2 ts2).2.metrics_data op).bind (fun e => e k)
        = ((record_operation_metrics st op d1 i1 c1 extras r1 ts1).2.metrics_data op).bind
            (fun e => e k)) ∧
    (∀ o, o ≠ op →
      (record_operation_metrics
          (record_operation_metrics st op d1 i1 c1 extras r1 ts1).2
          op d2 i2 c2 (fun _ => none) r2 ts2).2.metrics_data o
        = (record_operation_metrics st op d1 i1 c1 extras r1 ts1).2.metrics_data o) := by
  obtain ⟨h1store, h1frame⟩ := record_operation_metrics_stores st op d1 i1 c1 extras r1 ts1
  obtain ⟨h2store, h2frame⟩ := record_operation_metrics_stores
    (record_operation_metrics st op d1 i1 c1 extras r1 ts1).2 op d2 i2 c2
    (fun _ => none) r2 ts2
  refine ⟨⟨by rw [h2store]; rfl, by rw [h1store]; rfl⟩, ?_, ?_, h2frame⟩
  · intro k hk
    have hsome : ((record_operation_metrics
        (record_operation_metrics st op d1 i1 c1 extras r1 ts1).2
        op d2 i2 c2 (fun _ => none) r2 ts2).1 k).isSome := by
      rcases hval : (record_operation_metrics
          (record_operation_metrics st op d1 i1 c1 extras r1 ts1).2
          op d2 i2 c2 (fun _ => none) r2 ts2).1 k with _ | v
      · exact absurd ((record_operation_metrics_domain _ op d2 i2 c2 r2 ts2 k).mp hval) (by simp [hk])
      · rfl
    rw [h2store]
    rcases hval : (record_operation_metrics
        (record_operation_metrics st op d1 i1 c1 extras r1 ts1).2
        op d2 i2 c2 (fun _ => none) r2 ts2).1 k with _ | v
    · rw [hval] at hsome; simp at hsome
    · simp [entryUpdate, hval]
  · intro k hk
    have hnone : (record_operation_metrics
        (record_operation_metrics st op d1 i1 c1 extras r1 ts1).2
        op d2 i2 c2 (fun _ => none) r2 ts2).1 k = none :=
      (record_operation_metrics_domain _ op d2 i2 c2 r2 ts2 k).mpr hk
    rw [h2store, h1store]
    simp [entryUpdate, hnone]

/-- Witness for C10: at a concrete collector, with a `custom_metric` extra
supplied only in the first call, the second record keeps `custom_metric`
from the first entry, binds `data_size` to the second call's merged value,
and leaves other operations' entries unchanged. -/
theorem record_operation_metrics_merge_witness :
    ((record_operation_metrics
        (record_operation_metrics stExample "sort_intensive" 7 1 false
          (fun k => if k = "custom_metric" then some (Val.q 42) else none)
          (some memEx) "T1").2
        "sort_intensive" 9 2 true (fun _ => none) (some memEx) "T2").2.metrics_data
        "sort_intensive").bind (fun e => e "custom_metric")
      = ((record_operation_metrics stExample "sort_intensive" 7 1 false
          (fun k => if k = "custom_metric" then some (Val.q 42) else none)
          (some memEx) "T1").2.metrics_data "sort_intensive").bind
          (fun e => e "custom_metric") ∧
    ((record_operation_metrics
        (record_operation_metrics stExample "sort_intensive" 7 1 false
          (fun k => if k = "custom_metric" then some (Val.q 42) else none)
          (some memEx) "T1").2
        "sort_intensive" 9 2 true (fun _ => none) (some memEx) "T2").2.metrics_data
        "sort_intensive").bind (fun e => e "data_size")
      = (record_operation_metrics
          (record_operation_metrics stExample "sort_intensive" 7 1 false
            (fun k => if k = "custom_metric" then some (Val.q 42) else none)
            (some memEx) "T1").2
          "sort_intensive" 9 2 true (fun _ => none) (some memEx) "T2").1 "data_size" ∧
    (record_operation_metrics
        (record_operation_metrics stExample "sort_intensive" 7 1 false
          (fun k => if k = "custom_metric" then some (Val.q 42) else none)
          (some memEx) "T1").2
        "sort_intensive" 9 2 true (fun _ => none) (some memEx) "T2").2.metrics_data
        "math_ops"
      = (record_operation_metrics stExample "sort_intensive" 7 1 false
          (fun k => if k = "custom_metric" then some (Val.q 42) else none)
          (some memEx) "T1").2.metrics_data "math_ops" := by
  have h := record_operation_metrics_merge stExample "sort_intensive" 7 1 false
    (fun k => if k = "custom_metric" then some (Val.q 42) else none) (some memEx) "T1"
    9 2 true (some memEx) "T2"
  exact ⟨h.2.2.1 "custom_metric" (by decide), h.2.1 "data_size" (by decide),
    h.2.2.2 "math_ops" (by decide)⟩

/-! ### Claims C6 / C4 — `calculate_statistics` grouping and statistics -/

/-- The single step of the grouping fold. -/
def groupStep (groups : List ((String × String × ℕ) × List TestResult))
    (r : TestResult) : List ((String × String × ℕ) × List TestResult) :=
  dictInsert groups (keyOf r) (((dictLookup groups (keyOf r)).getD []) ++ [r])

theorem groupResults_eq_foldl (results : List TestResult) :
    groupResults results = results.foldl groupStep [] := rfl

/-- After folding the remaining results over an accumulator, the bucket at a
key holds the accumulator's bucket extended with exactly the matching
results, in order. -/
theorem dictLookup_foldl_groupStep (results : List TestResult)
    (acc : List ((String × String × ℕ) × List TestResult))
    (k : String × String × ℕ) :
    dictLookup (results.foldl groupStep acc) k =
      match dictLookup acc k with
      | some g => some (g ++ results.filter (fun r => decide (keyOf r = k)))
      | none =>
          if results.filter (fun r => decide (keyOf r = k)) = [] then none
          else some (results.filter (fun r => decide (keyOf r = k))) := by
  induction results generalizing acc with
  | nil =>
      rcases h : dictLookup acc k with _ | g <;> simp [h]
  | cons r rest ih =>
      rw [List.foldl_cons, ih]
      by_cases hk : keyOf r = k
      · subst hk
        rw [show dictLookup (groupStep acc r) (keyOf r)
              = some (((dictLookup acc (keyOf r)).getD []) ++ [r]) by
            simp [groupStep, dictLookup_dictInsert]]
        rcases h : dictLookup acc (keyOf r) with _ | g <;> simp [h, List.filter_cons]
      · rw [show dictLookup (groupStep acc r) k = dictLookup acc k by
            simp [groupStep, dictLookup_dictInsert, hk]]
        rcases h : dictLookup acc k with _ | g <;>
          simp [h, List.filter_cons, hk]

/-- The grouping dictionary has no duplicate keys. -/
theorem groupResults_keys_nodup (results : List TestResult) :
    (dictKeys (groupResults results)).Nodup := by
  rw [groupResults_eq_foldl]
  have main : ∀ (rs : List TestResult) (acc : List ((String × String × ℕ) × List TestResult)),
      (dictKeys acc).Nodup → (dictKeys (rs.foldl groupStep acc)).Nodup := by
    intro rs
    induction rs with
    | nil => intro acc h; simpa using h
    | cons r rest ih =>
        intro acc h
        rw [List.foldl_cons]
        exact ih _ (dictKeys_nodup_dictInsert h)
  exact main results [] (by simp)

/-- Every bucket of the grouping dictionary is exactly the sublist of input
results carrying that key, and is nonempty. -/
theorem groupResults_bucket (results : List TestResult)
    (k : String × String × ℕ) (g : List TestResult)
    (hmem : (k, g) ∈ groupResults results) :
    g = results.filter (fun r => decide (keyOf r = k)) ∧ g ≠ [] := by
  have hlook : dictLookup (groupResults results) k = some g := by
    rcases hl : dictLookup (groupResults results) k with _ | g'
    · have := dictLookup_isSome_of_mem hmem
      rw [hl] at this
      simp at this
    · have hmem' := dictLookup_some_mem hl
      have hnd := groupResults_keys_nodup results
      rw [mem_value_unique_of_nodup_keys hnd hmem hmem']
  rw [groupResults_eq_foldl] at hlook
  rw [dictLookup_foldl_groupStep results [] k] at hlook
  simp only [dictLookup] at hlook
  by_cases hf : results.filter (fun r => decide (keyOf r = k)) = []
  · rw [if_pos hf] at hlook
    simp at hlook
  · rw [if_neg hf] at hlook
    simp at hlook
    exact ⟨hlook.symm, by rw [← hlook]; exact hf⟩

/-- C6: every statistics record produced by `calculate_statistics` describes
exactly the input results whose `(architecture, operation, data_size)`
triple matches the record's — results differing in architecture or
data_size are never mixed into it, and the group is nonempty — with
`mean_execution_time` the arithmetic mean of the group's execution times
and `cold_start_percentage` equal to `100 × cold-count / sample_count`. -/
theorem calculate_statistics_spec (results : List TestResult) (s : PerformanceStats)
    (hs : s ∈ calculate_statistics results) :
    results.filter
        (fun r => decide (keyOf r = (s.architecture, s.operation, s.data_size))) ≠ [] ∧
    s.sample_count = (results.filter
        (fun r => decide (keyOf r = (s.architecture, s.operation, s.data_size)))).length ∧
    s.mean_execution_time =
      ((results.filter
          (fun r => decide (keyOf r = (s.architecture, s.operation, s.data_size)))).map
        (fun r => r.execution_time_ms)).sum /
      ((results.filter
          (fun r => decide (keyOf r = (s.architecture, s.operation, s.data_size)))).length : ℚ) ∧
    s.cold_start_percentage =
      (((results.filter
          (fun r => decide (keyOf r = (s.architecture, s.operation, s.data_size)))).countP
          (fun r => r.cold_start) : ℚ) /
        ((results.filter
          (fun r => decide (keyOf r = (s.architecture, s.operation, s.data_size)))).length : ℚ)) * 100 ∧
    (∀ r ∈ results.filter
        (fun r => decide (keyOf r = (s.architecture, s.operation, s.data_size))),
      r.architecture = s.architecture ∧ r.operation = s.operation ∧
        r.data_size = s.data_size) := by
  obtain ⟨p, hp, hmk⟩ := List.mem_map.mp hs
  obtain ⟨k, g⟩ := p
  obtain ⟨hbucket, hne⟩ := groupResults_bucket results k g hp
  have hkey : ((mkStats k g).architecture, (mkStats k g).operation,
      (mkStats k g).data_size) = k := rfl
  subst hmk
  rw [hkey, ← hbucket]
  refine ⟨hne, by simp [mkStats], ?_, ?_, ?_⟩
  · simp [mkStats]
  · simp [mkStats]
  · intro r hr
    rw [hbucket] at hr
    have := List.of_mem_filter hr
    simp only [decide_eq_true_eq] at this
    have hk1 : keyOf r = ((mkStats k g).architecture, (mkStats k g).operation,
        (mkStats k g).data_size) := by rw [hkey]; exact this
    exact ⟨congrArg (fun t => t.1) hk1, congrArg (fun t => t.2.1) hk1,
      congrArg (fun t => t.2.2) hk1⟩

/-- The spec's worked aggregation example: two arm64 and two x86_64 trials
of the same operation and size. -/
def rsExample : List TestResult :=
  [⟨"arm64", "sort", 100, 1, 100, 50, false⟩,
   ⟨"arm64", "sort", 100, 1, 120, 55, true⟩,
   ⟨"x86_64", "sort", 100, 1, 110, 60, false⟩,
   ⟨"x86_64", "sort", 100, 1, 130, 65, true⟩]

/-- The arm64 statistics record for `rsExample`: mean 110, one cold start
out of two (50%). -/
def armStatsEx : PerformanceStats :=
  ⟨"arm64", "sort", 100, 2, 110, 120, 5, 100, 120, 105/2, 50⟩

/-- The x86_64 statistics record for `rsExample`: mean 120. -/
def x86StatsEx : PerformanceStats :=
  ⟨"x86_64", "sort", 100, 2, 120, 130, 5, 110, 130, 125/2, 50⟩

/-- `calculate_statistics` on the spec example evaluates to exactly the
arm64 and x86_64 records. -/
theorem calculate_statistics_rsExample :
    calculate_statistics rsExample = [armStatsEx, x86StatsEx] := by
  have hne : ("arm64" : String) ≠ "x86_64" := by decide
  have hne2 : ("x86_64" : String) ≠ "arm64" := by decide
  norm_num [calculate_statistics, groupResults, groupStep, keyOf, dictInsert, dictLookup,
    mkStats, pySorted, pyIdx, listMin, listMax, rsExample, armStatsEx, x86StatsEx,
    List.insertionSort, List.orderedInsert, hne, hne2]

/-- Witness for C6: the arm64 group of the spec example aggregates to mean
110 and cold-start percentage 50, matching the grouped-filter formulas. -/
theorem calculate_statistics_spec_witness :
    armStatsEx ∈ calculate_statistics rsExample ∧
    armStatsEx.mean_execution_time =
      ((rsExample.filter
          (fun r => decide (keyOf r = (armStatsEx.architecture, armStatsEx.operation,
            armStatsEx.data_size)))).map (fun r => r.execution_time_ms)).sum /
      ((rsExample.filter
          (fun r => decide (keyOf r = (armStatsEx.architecture, armStatsEx.operation,
            armStatsEx.data_size)))).length : ℚ) ∧
    armStatsEx.cold_start_percentage =
      (((rsExample.filter
          (fun r => decide (keyOf r = (armStatsEx.architecture, armStatsEx.operation,
            armStatsEx.data_size)))).countP (fun r => r.cold_start) : ℚ) /
        ((rsExample.filter
          (fun r => decide (keyOf r = (armStatsEx.architecture, armStatsEx.operation,
            armStatsEx.data_size)))).length : ℚ)) * 100 ∧
    armStatsEx.mean_execution_time = 110 ∧ armStatsEx.cold_start_percentage = 50 := by
  have hmem : armStatsEx ∈ calculate_statistics rsExample := by
    rw [calculate_statistics_rsExample]; exact List.mem_cons_self _ _
  have h := calculate_statistics_spec rsExample armStatsEx hmem
  exact ⟨hmem, h.2.2.1, h.2.2.2.1, rfl, rfl⟩

/-- Four same-group trials with execution times 100, 110, 120, 130 — an even
sample count whose lower-middle element is 110. -/
def rsMedian : List TestResult :=
  [⟨"arm64", "sort", 100, 1, 100, 50, false⟩,
   ⟨"arm64", "sort", 100, 1, 110, 50, false⟩,
   ⟨"arm64", "sort", 100, 1, 120, 50, false⟩,
   ⟨"arm64", "sort", 100, 1, 130, 50, false⟩]

/-- The statistics record the aggregator produces for `rsMedian`:
its median is 120, the upper-middle element. -/
def medStatsEx : PerformanceStats :=
  ⟨"arm64", "sort", 100, 4, 115, 120, 5, 100, 130, 50, 0⟩

/-- `calculate_statistics` on `rsMedian` evaluates to exactly `medStatsEx`. -/
theorem calculate_statistics_rsMedian :
    calculate_statistics rsMedian = [medStatsEx] := by
  norm_num [calculate_statistics, groupResults, groupStep, keyOf, dictInsert, dictLookup,
    mkStats, pySorted, pyIdx, listMin, listMax, rsMedian, medStatsEx,
    List.insertionSort, List.orderedInsert]

/-- Counterexample to C4: on the even-count group with ascending execution
times [100, 110, 120, 130] the aggregator reports median 120 — the
upper-middle element — whereas the lower-middle element of the ascending
sort is 110. -/
theorem calculate_statistics_median_counterexample :
    (calculate_statistics rsMedian).map (fun s => s.median_execution_time) = [120] ∧
    medianLowerSpec [100, 110, 120, 130] = 110 ∧ ((120 : ℚ) ≠ 110) := by
  refine ⟨?_, ?_, by norm_num⟩
  · rw [calculate_statistics_rsMedian]
    norm_num [medStatsEx]
  · norm_num [medianLowerSpec, pySorted, pyIdx, List.insertionSort, List.orderedInsert]

/-- C4 (amended): for every nonempty group, the aggregator's median is the
element at index `⌊n/2⌋` of the ascending-sorted execution times — the true
middle for odd counts and the **upper**-middle element for even counts. -/
theorem calculate_statistics_median_spec (results : List TestResult)
    (s : PerformanceStats) (hs : s ∈ calculate_statistics results) :
    s.median_execution_time =
      pyIdx
        (pySorted ((results.filter
          (fun r => decide (keyOf r = (s.architecture, s.operation, s.data_size)))).map
          (fun r => r.execution_time_ms)))
        (((results.filter
          (fun r => decide (keyOf r = (s.architecture, s.operation, s.data_size)))).map
          (fun r => r.execution_time_ms)).length / 2) ∧
    List.Sorted (fun a b => a ≤ b)
      (pySorted ((results.filter
        (fun r => decide (keyOf r = (s.architecture, s.operation, s.data_size)))).map
        (fun r => r.execution_time_ms))) ∧
    (pySorted ((results.filter
        (fun r => decide (keyOf r = (s.architecture, s.operation, s.data_size)))).map
        (fun r => r.execution_time_ms))).Perm
      ((results.filter
        (fun r => decide (keyOf r = (s.architecture, s.operation, s.data_size)))).map
        (fun r => r.execution_time_ms)) := by
  obtain ⟨p, hp, hmk⟩ := List.mem_map.mp hs
  obtain ⟨k, g⟩ := p
  obtain ⟨hbucket, hne⟩ := groupResults_bucket results k g hp
  have hkey : ((mkStats k g).architecture, (mkStats k g).operation,
      (mkStats k g).data_size) = k := rfl
  subst hmk
  rw [hkey, ← hbucket]
  exact ⟨rfl, List.sorted_insertionSort _ _, List.perm_insertionSort _ _⟩

/-- Witness for the amended C4: on the concrete even-count group
[100, 110, 120, 130] the reported median equals the sorted list's element
at index 4/2 = 2, i.e. 120. -/
theorem calculate_statistics_median_spec_witness :
    medStatsEx ∈ calculate_statistics rsMedian ∧
    medStatsEx.median_execution_time =
      pyIdx
        (pySorted ((rsMedian.filter
          (fun r => decide (keyOf r = (medStatsEx.architecture, medStatsEx.operation,
            medStatsEx.data_size)))).map (fun r => r.execution_time_ms)))
        (((rsMedian.filter
          (fun r => decide (keyOf r = (medStatsEx.architecture, medStatsEx.operation,
            medStatsEx.data_size)))).map (fun r => r.execution_time_ms)).length / 2) ∧
    medStatsEx.median_execution_time = 120 := by
  have hmem : medStatsEx ∈ calculate_statistics rsMedian := by
    rw [calculate_statistics_rsMedian]; exact List.mem_cons_self _ _
  exact ⟨hmem, (calculate_statistics_median_spec rsMedian medStatsEx hmem).1, rfl⟩

/-! ### Claims C2 / C3 / C8 / C9 — `compare_architectures` -/

/-- The single step of the arch-map dict comprehension. -/
def archMapStep (arch : String) (m : List ((String × ℕ) × PerformanceStats))
    (s : PerformanceStats) : List ((String × ℕ) × PerformanceStats) :=
  if s.architecture = arch then dictInsert m (s.operation, s.data_size) s else m

theorem archMap_eq_foldl (arch : String) (stats : List PerformanceStats) :
    archMap arch stats = stats.foldl (archMapStep arch) [] := rfl

/-- The arch map has no duplicate keys. -/
theorem archMap_keys_nodup (arch : String) (stats : List PerformanceStats) :
    (dictKeys (archMap arch stats)).Nodup := by
  rw [archMap_eq_foldl]
  have main : ∀ (l : List PerformanceStats) (acc : List ((String × ℕ) × PerformanceStats)),
      (dictKeys acc).Nodup → (dictKeys (l.foldl (archMapStep arch) acc)).Nodup := by
    intro l
    induction l with
    | nil => intro acc h; simpa using h
    | cons s rest ih =>
        intro acc h
        rw [List.foldl_cons]
        unfold archMapStep
        by_cases hs : s.architecture = arch
        · rw [if_pos hs]
          exact ih _ (dictKeys_nodup_dictInsert h)
        · rw [if_neg hs]
          exact ih _ h
  exact main stats [] (by simp)

/-- Every binding of the arch map comes from an input stat of that
architecture, keyed by its own `(operation, data_size)`. -/
theorem archMap_lookup_mem (arch : String) (stats : List PerformanceStats)
    (k : String × ℕ) (s : PerformanceStats)
    (h : dictLookup (archMap arch stats) k = some s) :
    s ∈ stats ∧ s.architecture = arch ∧ (s.operation, s.data_size) = k := by
  rw [archMap_eq_foldl] at h
  have main : ∀ (l : List PerformanceStats) (acc : List ((String × ℕ) × PerformanceStats)),
      dictLookup (l.foldl (archMapStep arch) acc) k = some s →
      dictLookup acc k = some s ∨
        (s ∈ l ∧ s.architecture = arch ∧ (s.operation, s.data_size) = k) := by
    intro l
    induction l with
    | nil => intro acc h'; exact Or.inl h'
    | cons s0 rest ih =>
        intro acc h'
        rw [List.foldl_cons] at h'
        rcases ih _ h' with h2 | h2
        · unfold archMapStep at h2
          by_cases hs : s0.architecture = arch
          · rw [if_pos hs, dictLookup_dictInsert] at h2
            by_cases hk : (s0.operation, s0.data_size) = k
            · rw [if_pos hk] at h2
              have hss : s0 = s := Option.some_inj.mp h2
              subst hss
              exact Or.inr ⟨List.mem_cons_self _ _, hs, hk⟩
            · rw [if_neg hk] at h2
              exact Or.inl h2
          · rw [if_neg hs] at h2
            exact Or.inl h2
        · exact Or.inr ⟨List.mem_cons_of_mem _ h2.1, h2.2⟩
  rcases main stats [] h with h' | h'
  · simp [dictLookup] at h'
  · exact h'

/-- A stat of the right architecture leaves its key present in the arch
map. -/
theorem archMap_lookup_isSome (arch : String) (stats : List PerformanceStats)
    (s : PerformanceStats) (hs : s ∈ stats) (ha : s.architecture = arch) :
    (dictLookup (archMap arch stats) (s.operation, s.data_size)).isSome := by
  rw [archMap_eq_foldl]
  have preserve : ∀ (l : List PerformanceStats)
      (acc : List ((String × ℕ) × PerformanceStats)) (k : String × ℕ),
      (dictLookup acc k).isSome →
      (dictLookup (l.foldl (archMapStep arch) acc) k).isSome := by
    intro l
    induction l with
    | nil => intro acc k h; simpa using h
    | cons s0 rest ih =>
        intro acc k h
        rw [List.foldl_cons]
        refine ih _ k ?_
        unfold archMapStep
        by_cases h0 : s0.architecture = arch
        · rw [if_pos h0, dictLookup_dictInsert]
          by_cases hk : (s0.operation, s0.data_size) = k
          · rw [if_pos hk]; rfl
          · rw [if_neg hk]; exact h
        · rw [if_neg h0]; exact h
  induction stats with
  | nil => simp at hs
  | cons s0 rest ih =>
      rw [List.foldl_cons]
      rcases List.mem_cons.mp hs with rfl | hmem
      · refine preserve rest _ _ ?_
        unfold archMapStep
        rw [if_pos ha, dictLookup_dictInsert, if_pos rfl]
        rfl
      · -- fold over rest starting from the updated accumulator
        have main : ∀ (l : List PerformanceStats)
            (acc : List ((String × ℕ) × PerformanceStats)),
            s ∈ l → s.architecture = arch →
            (dictLookup (l.foldl (archMapStep arch) acc) (s.operation, s.data_size)).isSome := by
          intro l
          induction l with
          | nil => intro acc h _; simp at h
          | cons t rest2 ih2 =>
              intro acc h harch
              rw [List.foldl_cons]
              rcases List.mem_cons.mp h with rfl | hmem2
              · refine preserve rest2 _ _ ?_
                unfold archMapStep
                rw [if_pos harch, dictLookup_dictInsert, if_pos rfl]
                rfl
              · exact ih2 _ hmem2 harch
        exact main rest _ hmem ha

/-- A paired key produces its comparison in the successful output. -/
theorem comparePairs_mem (x86m : List ((String × ℕ) × PerformanceStats)) :
    ∀ (l : List ((String × ℕ) × PerformanceStats)) (cs : List (String × ComparisonResult)),
      comparePairs x86m l = Except.ok cs →
      ∀ (k : String × ℕ) (sA sX : PerformanceStats),
        (k, sA) ∈ l → dictLookup x86m k = some sX →
        (toKey k, mkComparison k sA sX) ∈ cs := by
  intro l
  induction l with
  | nil =>
      intro cs h k sA sX hmem hx
      simp at hmem
  | cons p rest ih =>
      obtain ⟨k0, s0⟩ := p
      intro cs h k sA sX hmem hx
      unfold comparePairs at h
      rcases hl : dictLookup x86m k0 with _ | sX0
      · rw [hl] at h
        rcases List.mem_cons.mp hmem with he | hmem2
        · rw [Prod.mk.injEq] at he
          rw [he.1, hl] at hx
          exact absurd hx (by simp)
        · exact ih cs h k sA sX hmem2 hx
      · rw [hl] at h
        dsimp only at h
        by_cases hz : sX0.mean_execution_time = 0
        · rw [if_pos hz] at h
          exact absurd h (by simp)
        · rw [if_neg hz] at h
          rcases hrec : comparePairs x86m rest with e | tail
          · rw [hrec] at h
            simp at h
          · rw [hrec] at h
            have hcs : (toKey k0, mkComparison k0 s0 sX0) :: tail = cs := by
              injection h
            rw [← hcs]
            rcases List.mem_cons.mp hmem with he | hmem2
            · rw [Prod.mk.injEq] at he
              obtain ⟨hek, hes⟩ := he
              subst hek
              subst hes
              rw [hl] at hx
              rw [Option.some_inj.mp hx]
              exact List.mem_cons_self _ _
            · exact List.mem_cons_of_mem _ (ih tail hrec k sA sX hmem2 hx)

/-- When every paired x86 stat has a nonzero mean, the comparison loop
returns normally. -/
theorem comparePairs_ok (x86m : List ((String × ℕ) × PerformanceStats)) :
    ∀ (l : List ((String × ℕ) × PerformanceStats)),
      (∀ p ∈ l, ∀ sX, dictLookup x86m p.1 = some sX → sX.mean_execution_time ≠ 0) →
      ∃ cs, comparePairs x86m l = Except.ok cs := by
  intro l
  induction l with
  | nil => exact fun _ => ⟨[], rfl⟩
  | cons p rest ih =>
      intro hyp
      obtain ⟨k0, s0⟩ := p
      obtain ⟨cs, hcs⟩ := ih (fun q hq => hyp q (List.mem_cons_of_mem _ hq))
      unfold comparePairs
      rcases hl : dictLookup x86m k0 with _ | sX0
      · exact ⟨cs, hcs⟩
      · have hz := hyp (k0, s0) (List.mem_cons_self _ _) sX0 hl
        dsimp only
        rw [if_neg hz, hcs]
        exact ⟨_, rfl⟩

/-- Each key contributes to the successful output exactly as often as it
occurs in the arm-side list while being present in the x86 map. -/
theorem comparePairs_countP (x86m : List ((String × ℕ) × PerformanceStats))
    (k : String × ℕ) :
    ∀ (l : List ((String × ℕ) × PerformanceStats)) (cs : List (String × ComparisonResult)),
      comparePairs x86m l = Except.ok cs →
      cs.countP (fun c => decide (c.2.operation = k.1 ∧ c.2.data_size = k.2)) =
        if (dictLookup x86m k).isSome then l.countP (fun p => decide (p.1 = k)) else 0 := by
  intro l
  induction l with
  | nil =>
      intro cs h
      have hcs : ([] : List (String × ComparisonResult)) = cs := by
        unfold comparePairs at h
        injection h
      rw [← hcs]
      by_cases hsome : (dictLookup x86m k).isSome <;> simp [hsome]
  | cons p rest ih =>
      obtain ⟨k0, s0⟩ := p
      intro cs h
      unfold comparePairs at h
      rcases hl : dictLookup x86m k0 with _ | sX0
      · rw [hl] at h
        rw [ih cs h, List.countP_cons]
        by_cases hk : k0 = k
        · subst hk
          rw [hl]
          simp
        · have : ¬((k0, s0).1 = k) := hk
          simp [this]
      · rw [hl] at h
        dsimp only at h
        by_cases hz : sX0.mean_execution_time = 0
        · rw [if_pos hz] at h
          exact absurd h (by simp)
        · rw [if_neg hz] at h
          rcases hrec : comparePairs x86m rest with e | tail
          · rw [hrec] at h
            simp at h
          · rw [hrec] at h
            have hcs : (toKey k0, mkComparison k0 s0 sX0) :: tail = cs := by
              injection h
            rw [← hcs, List.countP_cons, List.countP_cons, ih tail hrec]
            by_cases hk : k0 = k
            · subst hk
              rw [hl]
              simp [mkComparison]
            · have hpred : ¬((mkComparison k0 s0 sX0).operation = k.1 ∧
                  (mkComparison k0 s0 sX0).data_size = k.2) := by
                intro hc
                exact hk (Prod.ext hc.1 hc.2)
              have hpred2 : ¬((k0, s0).1 = k) := hk
              simp [hpred, hpred2]

/-- The spec's comparison example: arm64 mean 100 vs x86_64 mean 120 for the
same `(operation, data_size)` key. -/
def armCmpStat : PerformanceStats := ⟨"arm64", "sort", 100, 5, 100, 98, 5, 90, 110, 50, 20⟩

/-- The x86_64 side of the comparison example. -/
def x86CmpStat : PerformanceStats := ⟨"x86_64", "sort", 100, 5, 120, 118, 8, 105, 135, 60, 20⟩

/-- The two-sided comparison example input. -/
def statsCmpEx : List PerformanceStats := [armCmpStat, x86CmpStat]

/-- `compare_architectures` on the spec comparison example: exactly one
comparison, winner ARM64, diff −50/3 %. -/
theorem compare_architectures_statsCmpEx :
    compare_architectures statsCmpEx =
      Except.ok [(toKey ("sort", 100), ⟨"sort", 100, "ARM64", -50/3⟩)] := by
  have hne : ("x86_64" : String) ≠ "arm64" := by decide
  have hne2 : ("arm64" : String) ≠ "x86_64" := by decide
  norm_num [compare_architectures, comparePairs, archMap, dictInsert, dictLookup,
    mkComparison, statsCmpEx, armCmpStat, x86CmpStat, hne, hne2]

/-- C2: for every key present in both architecture maps, the produced
comparison's winner is the side with the strictly lower mean execution
time, and on an exact tie the second side — x86_64 — is declared winner. -/
theorem compare_architectures_winner (stats : List PerformanceStats)
    (op : String) (size : ℕ) (sA sX : PerformanceStats)
    (cs : List (String × ComparisonResult))
    (hA : dictLookup (archMap "arm64" stats) (op, size) = some sA)
    (hX : dictLookup (archMap "x86_64" stats) (op, size) = some sX)
    (hok : compare_architectures stats = Except.ok cs) :
    ∃ c ∈ cs, c.1 = toKey (op, size) ∧ c.2.operation = op ∧ c.2.data_size = size ∧
      (sA.mean_execution_time < sX.mean_execution_time → c.2.winner = "ARM64") ∧
      (sX.mean_execution_time < sA.mean_execution_time → c.2.winner = "x86_64") ∧
      (sA.mean_execution_time = sX.mean_execution_time → c.2.winner = "x86_64") := by
  have hmemA := dictLookup_some_mem hA
  have hmem := comparePairs_mem (archMap "x86_64" stats) (archMap "arm64" stats) cs hok
    (op, size) sA sX hmemA hX
  refine ⟨_, hmem, rfl, rfl, rfl, ?_, ?_, ?_⟩
  · intro hlt
    simp [mkComparison, if_pos hlt]
  · intro hlt
    have hnlt : ¬sA.mean_execution_time < sX.mean_execution_time := not_lt_of_gt hlt
    simp [mkComparison, if_neg hnlt]
  · intro heq
    have hnlt : ¬sA.mean_execution_time < sX.mean_execution_time := by
      rw [heq]; exact lt_irrefl _
    simp [mkComparison, if_neg hnlt]

/-- Witness for C2: at the spec example (means 100 vs 120) the key is in
both maps, the call succeeds, and the winner is ARM64 (the strictly lower
mean). -/
theorem compare_architectures_winner_witness :
    ∃ c ∈ [(toKey ("sort", 100),
        (⟨"sort", 100, "ARM64", -50/3⟩ : ComparisonResult))],
      c.1 = toKey ("sort", 100) ∧ c.2.operation = "sort" ∧ c.2.data_size = 100 ∧
      (armCmpStat.mean_execution_time < x86CmpStat.mean_execution_time →
        c.2.winner = "ARM64") ∧
      (x86CmpStat.mean_execution_time < armCmpStat.mean_execution_time →
        c.2.winner = "x86_64") ∧
      (armCmpStat.mean_execution_time = x86CmpStat.mean_execution_time →
        c.2.winner = "x86_64") :=
  compare_architectures_winner statsCmpEx "sort" 100 armCmpStat x86CmpStat
    [(toKey ("sort", 100), ⟨"sort", 100, "ARM64", -50/3⟩)]
    rfl rfl compare_architectures_statsCmpEx

/-- C3: every produced comparison's `execution_time_diff_percent` equals
`((arm64 mean − x86_64 mean) / x86_64 mean) × 100` (negative meaning arm64
is faster); and on the spec example — arm64 mean 100 against x86_64 mean
120 — the winner is ARM64 with a diff of −50/3 ≈ −16.67, within 0.1 of
−16.67. -/
theorem compare_architectures_diff_percent :
    (∀ (stats : List PerformanceStats) (op : String) (size : ℕ)
      (sA sX : PerformanceStats) (cs : List (String × ComparisonResult)),
      dictLookup (archMap "arm64" stats) (op, size) = some sA →
      dictLookup (archMap "x86_64" stats) (op, size) = some sX →
      compare_architectures stats = Except.ok cs →
      ∃ c ∈ cs, c.2.operation = op ∧ c.2.data_size = size ∧
        c.2.execution_time_diff_percent =
          (sA.mean_execution_time - sX.mean_execution_time) /
            sX.mean_execution_time * 100) ∧
    (∃ cs, compare_architectures statsCmpEx = Except.ok cs ∧
      ∃ c ∈ cs, c.2.winner = "ARM64" ∧
        c.2.execution_time_diff_percent = -50/3 ∧
        |c.2.execution_time_diff_percent - (-1667/100)| < 1/10) := by
  constructor
  · intro stats op size sA sX cs hA hX hok
    have hmemA := dictLookup_some_mem hA
    have hmem := comparePairs_mem (archMap "x86_64" stats) (archMap "arm64" stats) cs hok
      (op, size) sA sX hmemA hX
    exact ⟨_, hmem, rfl, rfl, rfl⟩
  · refine ⟨_, compare_architectures_statsCmpEx, ⟨_, List.mem_cons_self _ _, rfl, rfl, ?_⟩⟩
    rw [abs_sub_lt_iff]
    constructor <;> norm_num

/-- Witness for C3: the general diff-percent formula instantiated at the
spec example, where it evaluates to (100 − 120) / 120 × 100. -/
theorem compare_architectures_diff_percent_witness :
    ∃ c ∈ [(toKey ("sort", 100),
        (⟨"sort", 100, "ARM64", -50/3⟩ : ComparisonResult))],
      c.2.operation = "sort" ∧ c.2.data_size = 100 ∧
      c.2.execution_time_diff_percent =
        (armCmpStat.mean_execution_time - x86CmpStat.mean_execution_time) /
          x86CmpStat.mean_execution_time * 100 :=
  compare_architectures_diff_percent.1 statsCmpEx "sort" 100 armCmpStat x86CmpStat
    [(toKey ("sort", 100), ⟨"sort", 100, "ARM64", -50/3⟩)]
    rfl rfl compare_architectures_statsCmpEx

/-- A stat whose architecture is neither `"arm64"` nor `"x86_64"`, sharing
the arm64 side's key. -/
def unknownStat : PerformanceStats := ⟨"unknown", "sort", 100, 5, 200, 198, 5, 190, 210, 50, 20⟩

/-- Counterexample to C8: the second map does **not** collect all
non-arm64 architectures.  With an `"unknown"`-architecture stat paired
against an arm64 stat on the same key, the claim predicts a comparison for
that key, but the engine filters the second map with
`architecture == "x86_64"`, leaves the unknown stat in neither map, and
produces no comparison at all. -/
theorem compare_architectures_unknown_counterexample :
    unknownStat.architecture ≠ "arm64" ∧
    unknownStat.operation = "sort" ∧ unknownStat.data_size = 100 ∧
    dictLookup (archMap "arm64" [armCmpStat, unknownStat]) ("sort", 100) = some armCmpStat ∧
    dictLookup (archMap "x86_64" [armCmpStat, unknownStat]) ("sort", 100) = none ∧
    compare_architectures [armCmpStat, unknownStat] = Except.ok [] :=
  ⟨by decide, rfl, rfl, rfl, rfl, rfl⟩

/-- C8 (amended): the engine builds one map from stats whose architecture
is exactly `"arm64"` and one from stats whose architecture is exactly
`"x86_64"` (any other architecture value lands in neither map), keyed by
`(operation, data_size)`; each key present in both maps yields exactly one
comparison, and a key present in at most one map yields none — silently,
with no error. -/
theorem compare_architectures_pairing (stats : List PerformanceStats)
    (op : String) (size : ℕ) (cs : List (String × ComparisonResult))
    (hok : compare_architectures stats = Except.ok cs) :
    cs.countP (fun c => decide (c.2.operation = op ∧ c.2.data_size = size)) =
      (if (dictLookup (archMap "arm64" stats) (op, size)).isSome ∧
          (dictLookup (archMap "x86_64" stats) (op, size)).isSome then 1 else 0) ∧
    (∀ s, dictLookup (archMap "arm64" stats) (op, size) = some s →
      s ∈ stats ∧ s.architecture = "arm64" ∧ s.operation = op ∧ s.data_size = size) ∧
    (∀ s, dictLookup (archMap "x86_64" stats) (op, size) = some s →
      s ∈ stats ∧ s.architecture = "x86_64" ∧ s.operation = op ∧ s.data_size = size) ∧
    (∀ s ∈ stats, s.architecture = "arm64" →
      (dictLookup (archMap "arm64" stats) (s.operation, s.data_size)).isSome) ∧
    (∀ s ∈ stats, s.architecture = "x86_64" →
      (dictLookup (archMap "x86_64" stats) (s.operation, s.data_size)).isSome) := by
  refine ⟨?_, ?_, ?_, ?_, ?_⟩
  · rw [comparePairs_countP (archMap "x86_64" stats) (op, size) (archMap "arm64" stats) cs hok,
      countP_key_of_nodup (archMap_keys_nodup "arm64" stats)]
    by_cases hx : (dictLookup (archMap "x86_64" stats) (op, size)).isSome <;>
      by_cases ha : (dictLookup (archMap "arm64" stats) (op, size)).isSome <;>
      simp [hx, ha]
  · intro s hs
    obtain ⟨h1, h2, h3⟩ := archMap_lookup_mem "arm64" stats (op, size) s hs
    rw [Prod.mk.injEq] at h3
    exact ⟨h1, h2, h3.1, h3.2⟩
  · intro s hs
    obtain ⟨h1, h2, h3⟩ := archMap_lookup_mem "x86_64" stats (op, size) s hs
    rw [Prod.mk.injEq] at h3
    exact ⟨h1, h2, h3.1, h3.2⟩
  · intro s hs ha
    exact archMap_lookup_isSome "arm64" stats s hs ha
  · intro s hs ha
    exact archMap_lookup_isSome "x86_64" stats s hs ha

/-- Witness for the amended C8: on the two-sided example exactly one
comparison carries the shared key; on the one-sided example (arm64 paired
with an unknown architecture) the call succeeds with zero comparisons. -/
theorem compare_architectures_pairing_witness :
    ([(toKey ("sort", 100), (⟨"sort", 100, "ARM64", -50/3⟩ : ComparisonResult))].countP
      (fun c => decide (c.2.operation = "sort" ∧ c.2.data_size = 100))) =
      (if (dictLookup (archMap "arm64" statsCmpEx) ("sort", 100)).isSome ∧
          (dictLookup (archMap "x86_64" statsCmpEx) ("sort", 100)).isSome then 1 else 0) ∧
    (([] : List (String × ComparisonResult)).countP
      (fun c => decide (c.2.operation = "sort" ∧ c.2.data_size = 100))) =
      (if (dictLookup (archMap "arm64" [armCmpStat, unknownStat]) ("sort", 100)).isSome ∧
          (dictLookup (archMap "x86_64" [armCmpStat, unknownStat]) ("sort", 100)).isSome
        then 1 else 0) :=
  ⟨(compare_architectures_pairing statsCmpEx "sort" 100 _
      compare_architectures_statsCmpEx).1,
   (compare_architectures_pairing [armCmpStat, unknownStat] "sort" 100 [] rfl).1⟩

/-! ### Claim C7 — sample standard deviation in `analyze_results` -/

/-- C7: for every group of trials, the reported `std_dev_ms` is the
Bessel-corrected (n − 1 denominator) sample standard deviation of the
group's execution times when the group has at least two members — it is
nonnegative and its square times (n − 1) is the sum of squared deviations
from the mean — and it is exactly 0 (not undefined or NaN) for a
single-member group. -/
theorem analyze_results_std_dev (results : List SingleResult) :
    (2 ≤ results.length →
      0 ≤ (mkArchAnalysis results).std_dev_ms ∧
      (mkArchAnalysis results).std_dev_ms ^ 2 * ((results.length : ℝ) - 1) =
        ((results.map (fun r => r.lambda_time)).map
          (fun (t : ℚ) => ((t : ℝ) -
            ((listMean (results.map (fun r => r.lambda_time)) : ℚ) : ℝ)) ^ 2)).sum) ∧
    (results.length = 1 → (mkArchAnalysis results).std_dev_ms = 0) := by
  constructor
  · intro h2
    set times := results.map (fun r => r.lambda_time) with htimes
    have hlen : times.length = results.length := List.length_map _ _
    have hlt : 1 < times.length := by omega
    have hstd : (mkArchAnalysis results).std_dev_ms = pyStdev times := by
      simp only [mkArchAnalysis, ← htimes, if_pos hlt]
    have hden : (0 : ℚ) < (times.length : ℚ) - 1 := by
      have : (2 : ℚ) ≤ (times.length : ℚ) := by exact_mod_cast (by omega : 2 ≤ times.length)
      linarith
    have hS : (0 : ℚ) ≤ (times.map (fun x => (x - listMean times) ^ 2)).sum := by
      apply List.sum_nonneg
      intro q hq
      obtain ⟨x, _, rfl⟩ := List.mem_map.mp hq
      exact sq_nonneg _
    have hvar : (0 : ℚ) ≤ sampleVarianceQ times :=
      div_nonneg hS (le_of_lt hden)
    have hvarR : (0 : ℝ) ≤ ((sampleVarianceQ times : ℚ) : ℝ) := by
      exact_mod_cast hvar
    constructor
    · rw [hstd]
      exact Real.sqrt_nonneg _
    · rw [hstd]
      have hsq : pyStdev times ^ 2 = ((sampleVarianceQ times : ℚ) : ℝ) :=
        Real.sq_sqrt hvarR
      rw [hsq]
      have hcast : ((sampleVarianceQ times : ℚ) : ℝ) =
          (((times.map (fun x => (x - listMean times) ^ 2)).sum : ℚ) : ℝ) /
            ((times.length : ℝ) - 1) := by
        unfold sampleVarianceQ
        push_cast
        ring
      rw [hcast]
      have hsum : (((times.map (fun x => (x - listMean times) ^ 2)).sum : ℚ) : ℝ) =
          (times.map (fun (t : ℚ) => ((t : ℝ) - ((listMean times : ℚ) : ℝ)) ^ 2)).sum := by
        rw [show ((((times.map (fun x => (x - listMean times) ^ 2)).sum : ℚ)) : ℝ) =
            ((times.map (fun x => (x - listMean times) ^ 2)).map
              (fun q : ℚ => (q : ℝ))).sum from map_list_sum (Rat.castHom ℝ) _]
        rw [List.map_map]
        have hfun : ((fun q : ℚ => (q : ℝ)) ∘ fun x : ℚ => (x - listMean times) ^ 2) =
            fun t : ℚ => ((t : ℝ) - ((listMean times : ℚ) : ℝ)) ^ 2 := by
          funext x
          simp only [Function.comp]
          push_cast
          ring
        rw [hfun]
      rw [hsum, hlen]
      have hne : ((results.length : ℝ) - 1) ≠ 0 := by
        have : (2 : ℝ) ≤ (results.length : ℝ) := by exact_mod_cast h2
        linarith
      rw [div_mul_cancel₀ _ hne]
  · intro h1
    have hlen : (results.map (fun r => r.lambda_time)).length = 1 := by
      rw [List.length_map]; exact h1
    simp [mkArchAnalysis, hlen]

/-- A two-trial group (times 100 and 120 ms). -/
def sdevEx2 : List SingleResult := [⟨100, 50, false⟩, ⟨120, 55, true⟩]

/-- A single-trial group (time 110 ms). -/
def sdevEx1 : List SingleResult := [⟨110, 60, false⟩]

/-- Witness for C7: the two-member group has a nonnegative standard
deviation whose square times (2 − 1) is the sum of squared deviations, and
the single-member group reports exactly 0. -/
theorem analyze_results_std_dev_witness :
    (0 ≤ (mkArchAnalysis sdevEx2).std_dev_ms ∧
      (mkArchAnalysis sdevEx2).std_dev_ms ^ 2 * ((sdevEx2.length : ℝ) - 1) =
        ((sdevEx2.map (fun r => r.lambda_time)).map
          (fun (t : ℚ) => ((t : ℝ) -
            ((listMean (sdevEx2.map (fun r => r.lambda_time)) : ℚ) : ℝ)) ^ 2)).sum) ∧
    (mkArchAnalysis sdevEx1).std_dev_ms = 0 :=
  ⟨(analyze_results_std_dev sdevEx2).1 (by decide),
   (analyze_results_std_dev sdevEx1).2 (by decide)⟩

/-! ### Claim C9 — unguarded division vs the `x86_avg > 0` guard -/

/-- An x86_64 stat whose mean execution time is exactly zero, paired with
the arm64 example on the same key. -/
def x86ZeroStat : PerformanceStats := ⟨"x86_64", "sort", 100, 5, 0, 0, 0, 0, 0, 60, 20⟩

/-- A comparison input containing a paired x86_64 group with mean 0. -/
def statsZero : List PerformanceStats := [armCmpStat, x86ZeroStat]

/-- `analyze_results` on nonempty sides evaluates to the analysis record
whose winner/improvement fields are filled only under the
`x86_avg > 0` guard. -/
theorem analyze_results_eq (operation : String) (aRes xRes : List SingleResult)
    (ha : aRes ≠ []) (hx : xRes ≠ []) :
    analyze_results operation aRes xRes = some
      { operation := operation
        test_count := aRes.length
        arm64 := mkArchAnalysis aRes
        x86_64 := mkArchAnalysis xRes
        winner :=
          if 0 < (mkArchAnalysis xRes).avg_time_ms then
            if (mkArchAnalysis aRes).avg_time_ms / (mkArchAnalysis xRes).avg_time_ms < 1
            then some "ARM64" else some "x86_64"
          else none
        performance_improvement :=
          if 0 < (mkArchAnalysis xRes).avg_time_ms then
            if (mkArchAnalysis aRes).avg_time_ms / (mkArchAnalysis xRes).avg_time_ms < 1
            then some ((1 - (mkArchAnalysis aRes).avg_time_ms /
              (mkArchAnalysis xRes).avg_time_ms) * 100)
            else some (((mkArchAnalysis aRes).avg_time_ms /
              (mkArchAnalysis xRes).avg_time_ms - 1) * 100)
          else none } := by
  unfold analyze_results
  rw [if_neg (by simp [ha, hx])]
  by_cases hpos : 0 < (mkArchAnalysis xRes).avg_time_ms <;>
    by_cases hr : (mkArchAnalysis aRes).avg_time_ms / (mkArchAnalysis xRes).avg_time_ms < 1 <;>
    simp [hpos, hr]

/-- C9: the percentage-difference division in `compare_architectures` is
unguarded — whenever every key paired across both maps has a nonzero
x86_64 mean the call returns normally, but a concrete input whose paired
x86_64 group has mean exactly 0 makes the division fault (there is no
error branch, so the whole call aborts); the parallel `analyze_results`
path instead emits its winner and improvement fields only under an
explicit `x86_avg > 0` guard. -/
theorem compare_architectures_division_unguarded :
    (∀ stats : List PerformanceStats,
      (∀ (k : String × ℕ) (sA sX : PerformanceStats),
        dictLookup (archMap "arm64" stats) k = some sA →
        dictLookup (archMap "x86_64" stats) k = some sX →
        sX.mean_execution_time ≠ 0) →
      ∃ cs, compare_architectures stats = Except.ok cs) ∧
    (x86ZeroStat.mean_execution_time = 0 ∧
      dictLookup (archMap "arm64" statsZero) ("sort", 100) = some armCmpStat ∧
      dictLookup (archMap "x86_64" statsZero) ("sort", 100) = some x86ZeroStat ∧
      compare_architectures statsZero = Except.error ()) ∧
    (∀ (operation : String) (aRes xRes : List SingleResult),
      aRes ≠ [] → xRes ≠ [] →
      ∃ A, analyze_results operation aRes xRes = some A ∧
        ((mkArchAnalysis xRes).avg_time_ms ≤ 0 →
          A.winner = none ∧ A.performance_improvement = none) ∧
        (0 < (mkArchAnalysis xRes).avg_time_ms →
          A.winner.isSome ∧ A.performance_improvement.isSome)) := by
  refine ⟨?_, ⟨rfl, rfl, rfl, rfl⟩, ?_⟩
  · intro stats hyp
    apply comparePairs_ok
    intro p hp sX hlook
    obtain ⟨k, sA⟩ := p
    have hsomeA := dictLookup_isSome_of_mem hp
    rcases hA : dictLookup (archMap "arm64" stats) k with _ | sA'
    · rw [hA] at hsomeA
      simp at hsomeA
    · exact hyp k sA' sX hA hlook
  · intro operation aRes xRes ha hx
    refine ⟨_, analyze_results_eq operation aRes xRes ha hx, ?_, ?_⟩
    · intro hle
      have hnpos : ¬0 < (mkArchAnalysis xRes).avg_time_ms := not_lt.mpr hle
      constructor <;> simp [hnpos]
    · intro hpos
      by_cases hr : (mkArchAnalysis aRes).avg_time_ms /
          (mkArchAnalysis xRes).avg_time_ms < 1 <;>
        constructor <;> simp [hpos, hr]

/-- Witness for C9: the nonzero-mean example returns normally, and an
`analyze_results` run with a positive x86 average emits winner and
improvement. -/
theorem compare_architectures_division_unguarded_witness :
    (∃ cs, compare_architectures statsCmpEx = Except.ok cs) ∧
    (∃ A, analyze_results "sort" sdevEx2 sdevEx1 = some A ∧
      A.winner.isSome ∧ A.performance_improvement.isSome) := by
  constructor
  · apply compare_architectures_division_unguarded.1 statsCmpEx
    intro k sA sX hA hX
    have hmem := dictLookup_some_mem hX
    have harch : archMap "x86_64" statsCmpEx = [(("sort", 100), x86CmpStat)] := rfl
    rw [harch] at hmem
    have heq : (k, sX) = (("sort", 100), x86CmpStat) := by simpa using hmem
    have hs : sX = x86CmpStat := congrArg Prod.snd heq
    rw [hs]
    norm_num [x86CmpStat]
  · obtain ⟨A, hA, _, h2⟩ := compare_architectures_division_unguarded.2.2 "sort"
      sdevEx2 sdevEx1 (by decide) (by decide)
    have hpos : 0 < (mkArchAnalysis sdevEx1).avg_time_ms := by
      norm_num [mkArchAnalysis, listMean, sdevEx1]
    exact ⟨A, hA, (h2 hpos).1, (h2 hpos).2⟩
